import Mathlib

/-!
Verification of `src/message_optimizer.rs` from `zks-protocol/zks-relay`.

Modelling conventions:
* A Rust `&str` / `String` is modelled by its UTF-8 byte sequence, a
  `List Nat` whose UTF-8 validity is tracked by the validator below
  (in Rust this invariant is maintained by the `str` type itself).
  Consequently `str::as_bytes` and `String::from_utf8` (on success) are
  the identity on the byte list, and `msg.len()` is `List.length`.
* The external `flate2` gzip streams (`GzEncoder`, `GzDecoder`) are not
  part of this repository; they are modelled by an abstract `Flate2`
  record of a fallible compression map and a fallible decompression map.
  Properties of the library (such as decompression inverting
  compression) appear as explicit hypotheses where a claim needs them.
* `Result<T, String>` is `Except String T`; error strings are built
  exactly as the `format!` calls in the source build them, with the
  underlying library/`std` cause texts reproduced.
-/

namespace ZksRelay

/-- Test for a UTF-8 continuation byte, `0x80 ..= 0xBF`
(Rust `utf8_is_cont_byte`). -/
def contB (b : Nat) : Bool :=
  decide (0x80 ≤ b ∧ b ≤ 0xBF)

/-- Second-byte constraint of a three-byte UTF-8 sequence, as matched by
Rust's `run_utf8_validation` (`0xE0` excludes overlong encodings, `0xED`
excludes surrogates). -/
def valid3Second (b0 b1 : Nat) : Bool :=
  if b0 = 0xE0 then decide (0xA0 ≤ b1 ∧ b1 ≤ 0xBF)
  else if b0 = 0xED then decide (0x80 ≤ b1 ∧ b1 ≤ 0x9F)
  else contB b1

/-- Second-byte constraint of a four-byte UTF-8 sequence, as matched by
Rust's `run_utf8_validation` (`0xF0` excludes overlong encodings, `0xF4`
keeps code points below `0x110000`). -/
def valid4Second (b0 b1 : Nat) : Bool :=
  if b0 = 0xF0 then decide (0x90 ≤ b1 ∧ b1 ≤ 0xBF)
  else if b0 = 0xF4 then decide (0x80 ≤ b1 ∧ b1 ≤ 0x8F)
  else contB b1

/-- Rust's UTF-8 validation (`core::str::validation::run_utf8_validation`,
reached through `String::from_utf8`), with `i` the byte index already
consumed.  Returns `none` on valid input, and on the first error returns
`some (valid_up_to, error_len)` exactly as `Utf8Error` reports it:
`error_len = none` for an incomplete sequence ending the input, and
`some k` for an invalid sequence of `k` bytes. -/
def utf8ErrAux (i : Nat) : List Nat → Option (Nat × Option Nat)
  | [] => none
  | b0 :: t =>
    if b0 ≤ 0x7F then utf8ErrAux (i + 1) t
    else if b0 < 0xC2 then some (i, some 1)
    else if b0 ≤ 0xDF then
      match t with
      | [] => some (i, none)
      | b1 :: t1 =>
        if contB b1 then utf8ErrAux (i + 2) t1 else some (i, some 1)
    else if b0 ≤ 0xEF then
      match t with
      | [] => some (i, none)
      | b1 :: t1 =>
        if valid3Second b0 b1 then
          match t1 with
          | [] => some (i, none)
          | b2 :: t2 =>
            if contB b2 then utf8ErrAux (i + 3) t2 else some (i, some 2)
        else some (i, some 1)
    else if b0 ≤ 0xF4 then
      match t with
      | [] => some (i, none)
      | b1 :: t1 =>
        if valid4Second b0 b1 then
          match t1 with
          | [] => some (i, none)
          | b2 :: t2 =>
            if contB b2 then
              match t2 with
              | [] => some (i, none)
              | b3 :: t3 =>
                if contB b3 then utf8ErrAux (i + 4) t3 else some (i, some 3)
            else some (i, some 2)
        else some (i, some 1)
    else some (i, some 1)

/-- UTF-8 validation of a whole byte sequence, from index `0`. -/
def utf8Error (data : List Nat) : Option (Nat × Option Nat) :=
  utf8ErrAux 0 data

/-- Boolean UTF-8 validity, the success condition of `String::from_utf8`
(and of `read_to_string`'s UTF-8 check). -/
def validUtf8 (data : List Nat) : Bool :=
  (utf8Error data).isNone

/-- Display text of a Rust `Utf8Error` (also the display of
`FromUtf8Error`, which forwards to it). -/
def utf8ErrDisplay (e : Nat × Option Nat) : String :=
  match e.2 with
  | some n =>
    "invalid utf-8 sequence of " ++ toString n ++ " bytes from index " ++ toString e.1
  | none => "incomplete utf-8 byte sequence from index " ++ toString e.1

/-- A Unicode scalar value: any code point outside the surrogate range
`0xD800 ..= 0xDFFF` and below `0x110000`.  This is the declarative side
against which the transcribed validator is checked. -/
def ScalarValue (c : Nat) : Prop :=
  c < 0xD800 ∨ (0xDFFF < c ∧ c < 0x110000)

/-- Declarative UTF-8 encoding of one scalar value. -/
def utf8EncodeChar (c : Nat) : List Nat :=
  if c < 0x80 then [c]
  else if c < 0x800 then [0xC0 + c / 64, 0x80 + c % 64]
  else if c < 0x10000 then
    [0xE0 + c / 4096, 0x80 + c / 64 % 64, 0x80 + c % 64]
  else
    [0xF0 + c / 262144, 0x80 + c / 4096 % 64, 0x80 + c / 64 % 64, 0x80 + c % 64]

/-- A byte sequence is the UTF-8 encoding of a given list of scalar
values. -/
inductive Utf8Encodes : List Nat → List Nat → Prop where
  | nil : Utf8Encodes [] []
  | cons {c : Nat} {cs bs : List Nat} :
      ScalarValue c → Utf8Encodes cs bs →
      Utf8Encodes (c :: cs) (utf8EncodeChar c ++ bs)

/-- Declarative UTF-8 validity: the bytes encode some sequence of scalar
values. -/
def Utf8Valid (bs : List Nat) : Prop :=
  ∃ cs, Utf8Encodes cs bs

/-- UTF-8 bytes of a Lean string literal, used to write concrete Rust
strings in theorem statements. -/
def utf8Bytes (s : String) : List Nat :=
  (s.data.map (fun ch => utf8EncodeChar ch.toNat)).flatten

/-- Abstraction of the external `flate2` crate used by the source.
`compress` models the `GzEncoder::write_all` / `finish` pipeline
(`none` when either step returns `Err`); `decompress` models reading
all bytes through a `GzDecoder` (`Except.error` carries the display of
the io error for a malformed/truncated stream).  The library is not part
of this repository, so its guarantees appear as explicit hypotheses in
the theorems that need them. -/
structure Flate2 where
  compress : List Nat → Option (List Nat)
  decompress : List Nat → Except String (List Nat)

/-- Message priority levels for queue management
(`enum MessagePriority`, discriminants `Critical = 0 .. Low = 3`). -/
inductive MessagePriority where
  | Critical
  | High
  | Normal
  | Low
deriving DecidableEq

/-- Byte-list analogue of slice pattern matching at the front: `pat` is
a leading segment of `hay`. -/
def headMatch : List Nat → List Nat → Bool
  | [], _ => true
  | _ :: _, [] => false
  | p :: ps, h :: hs => p == h && headMatch ps hs

/-- Rust `str::contains(pattern)` for a string pattern: substring search
at the byte level. -/
def containsSub (hay pat : List Nat) : Bool :=
  match hay with
  | [] => pat.isEmpty
  | _ :: t => headMatch pat hay || containsSub t pat

/-- Determine priority from message content
(`MessagePriority::from_message`): a chain of substring containment
checks, first matching tier wins, default `Normal`. -/
def MessagePriority.from_message (msg : List Nat) : MessagePriority :=
  if containsSub msg (utf8Bytes "\"type\":\"auth\"")
      || containsSub msg (utf8Bytes "\"type\":\"auth_init\"")
      || containsSub msg (utf8Bytes "\"type\":\"auth_response\"")
      || containsSub msg (utf8Bytes "\"type\":\"key_exchange\"")
      || containsSub msg (utf8Bytes "KeyExchange")
      || containsSub msg (utf8Bytes "AuthInit")
      || containsSub msg (utf8Bytes "AuthResponse") then
    MessagePriority.Critical
  else if containsSub msg (utf8Bytes "\"type\":\"entropy\"")
      || containsSub msg (utf8Bytes "\"type\":\"entropy_commit\"")
      || containsSub msg (utf8Bytes "\"type\":\"entropy_reveal\"")
      || containsSub msg (utf8Bytes "\"type\":\"peer_join\"")
      || containsSub msg (utf8Bytes "\"type\":\"peer_leave\"")
      || containsSub msg (utf8Bytes "PeerJoined")
      || containsSub msg (utf8Bytes "PeerLeft") then
    MessagePriority.High
  else if containsSub msg (utf8Bytes "\"type\":\"ping\"")
      || containsSub msg (utf8Bytes "\"type\":\"pong\"")
      || containsSub msg (utf8Bytes "Pong") then
    MessagePriority.Low
  else
    MessagePriority.Normal

/-- Check if message should skip queue
(`MessagePriority::is_critical`). -/
def MessagePriority.is_critical (self : MessagePriority) : Bool :=
  match self with
  | MessagePriority.Critical => true
  | _ => false

/-- The Critical-tier marker list, in source order. -/
def criticalMarkers : List (List Nat) :=
  [utf8Bytes "\"type\":\"auth\"", utf8Bytes "\"type\":\"auth_init\"",
    utf8Bytes "\"type\":\"auth_response\"", utf8Bytes "\"type\":\"key_exchange\"",
    utf8Bytes "KeyExchange", utf8Bytes "AuthInit", utf8Bytes "AuthResponse"]

/-- The High-tier marker list, in source order. -/
def highMarkers : List (List Nat) :=
  [utf8Bytes "\"type\":\"entropy\"", utf8Bytes "\"type\":\"entropy_commit\"",
    utf8Bytes "\"type\":\"entropy_reveal\"", utf8Bytes "\"type\":\"peer_join\"",
    utf8Bytes "\"type\":\"peer_leave\"", utf8Bytes "PeerJoined", utf8Bytes "PeerLeft"]

/-- The Low-tier marker list, in source order. -/
def lowMarkers : List (List Nat) :=
  [utf8Bytes "\"type\":\"ping\"", utf8Bytes "\"type\":\"pong\"", utf8Bytes "Pong"]

/-- The message contains some Critical-tier marker. -/
def hasCriticalMarker (msg : List Nat) : Bool :=
  criticalMarkers.any (fun p => containsSub msg p)

/-- The message contains some High-tier marker. -/
def hasHighMarker (msg : List Nat) : Bool :=
  highMarkers.any (fun p => containsSub msg p)

/-- The message contains some Low-tier marker. -/
def hasLowMarker (msg : List Nat) : Bool :=
  lowMarkers.any (fun p => containsSub msg p)

/-- The spec's data-driven reading of the classifier: an ordered list of
marker groups evaluated top to bottom, first matching tier wins. -/
def classifyFirstMatch (msg : List Nat) : MessagePriority :=
  if hasCriticalMarker msg then MessagePriority.Critical
  else if hasHighMarker msg then MessagePriority.High
  else if hasLowMarker msg then MessagePriority.Low
  else MessagePriority.Normal

/-- The reordered classifier variant named by the spec's order-independence
remark: the Low group is tested before the Critical and High groups. -/
def from_message_low_first (msg : List Nat) : MessagePriority :=
  if hasLowMarker msg then MessagePriority.Low
  else if hasCriticalMarker msg then MessagePriority.Critical
  else if hasHighMarker msg then MessagePriority.High
  else MessagePriority.Normal

/-- `const COMPRESSION_THRESHOLD: usize = 1024; // 1KB`. -/
def COMPRESSION_THRESHOLD : Nat := 1024

/-- Compress message if it's large enough to benefit (`maybe_compress`).
The message is its UTF-8 bytes, so `msg.len()` is `List.length` and
`msg.as_bytes().to_vec()` is the list itself. -/
def maybe_compress (F : Flate2) (msg : List Nat) : List Nat × Bool :=
  if msg.length < COMPRESSION_THRESHOLD then
    (msg, false)
  else
    match F.compress msg with
    | some compressed =>
      if compressed.length < msg.length then (compressed, true)
      else (msg, false)
    | none => (msg, false)

/-- Decompress message if it was compressed (`maybe_decompress`).
The untransformed branch is `String::from_utf8` with its error mapped to
`"UTF-8 decode error: \x7be\x7d"` (Rust `format!` with the cause); the transformed branch reads through a
`GzDecoder` with `read_to_string`, whose error (malformed stream, or the
`InvalidData` error `"stream did not contain valid UTF-8"` when the
decompressed bytes are not UTF-8) is mapped to
`"Decompression error: \x7be\x7d"`. -/
def maybe_decompress (F : Flate2) (data : List Nat) (was_compressed : Bool) :
    Except String (List Nat) :=
  if !was_compressed then
    match utf8Error data with
    | none => Except.ok data
    | some e => Except.error ("UTF-8 decode error: " ++ utf8ErrDisplay e)
  else
    match F.decompress data with
    | Except.error e => Except.error ("Decompression error: " ++ e)
    | Except.ok decompressed =>
      if validUtf8 decompressed then Except.ok decompressed
      else Except.error ("Decompression error: " ++ "stream did not contain valid UTF-8")

/-- Concrete `Flate2` instance whose transform is the identity; its
decompression inverts its compression, as the real library's does. -/
def gzipId : Flate2 :=
  ⟨fun b => some b, fun b => Except.ok b⟩

/-- Concrete `Flate2` instance that compresses everything to the
two-byte output `[65, 65]`, used to exercise the
strictly-smaller branch on concrete inputs. -/
def gzipShrink : Flate2 :=
  ⟨fun _ => some [65, 65], fun _ => Except.error "corrupt deflate stream"⟩

/-- Concrete `Flate2` instance whose compression always fails
(write/finish error) and whose decompression always reports a malformed
stream. -/
def gzipFailing : Flate2 :=
  ⟨fun _ => none, fun _ => Except.error "corrupt deflate stream"⟩

/-- Concrete `Flate2` instance whose decompression succeeds but yields
bytes that are not valid UTF-8. -/
def gzipToInvalid : Flate2 :=
  ⟨fun _ => none, fun _ => Except.ok [0xFF]⟩


/-! Helper lemmas about the UTF-8 validator and the codec branches.
These are shared infrastructure; the claim-level theorems follow them. -/

theorem utf8Valid_nil : Utf8Valid [] := ⟨[], .nil⟩

theorem utf8Valid_cons1 {b0 : Nat} {t : List Nat} (h : b0 ≤ 0x7F)
    (ht : Utf8Valid t) : Utf8Valid (b0 :: t) := by
  obtain ⟨cs, hcs⟩ := ht
  refine ⟨b0 :: cs, ?_⟩
  have he : utf8EncodeChar b0 = [b0] := by
    unfold utf8EncodeChar; rw [if_pos (by omega)]
  have h2 := Utf8Encodes.cons (c := b0) (by unfold ScalarValue; omega) hcs
  rw [he] at h2
  simpa using h2

theorem utf8Valid_cons2 {b0 b1 : Nat} {t : List Nat}
    (h0 : 0xC2 ≤ b0) (h0' : b0 ≤ 0xDF) (h1 : contB b1 = true)
    (ht : Utf8Valid t) : Utf8Valid (b0 :: b1 :: t) := by
  obtain ⟨cs, hcs⟩ := ht
  have hc1 : 0x80 ≤ b1 ∧ b1 ≤ 0xBF := by simpa [contB] using h1
  refine ⟨((b0 - 0xC0) * 64 + (b1 - 0x80)) :: cs, ?_⟩
  have he : utf8EncodeChar ((b0 - 0xC0) * 64 + (b1 - 0x80)) = [b0, b1] := by
    unfold utf8EncodeChar
    rw [if_neg (by omega), if_pos (by omega)]
    simp only [List.cons.injEq, and_true]
    omega
  have h2 := Utf8Encodes.cons (c := (b0 - 0xC0) * 64 + (b1 - 0x80))
    (by unfold ScalarValue; omega) hcs
  rw [he] at h2
  simpa using h2

theorem utf8Valid_cons3 {b0 b1 b2 : Nat} {t : List Nat}
    (h0 : 0xE0 ≤ b0) (h0' : b0 ≤ 0xEF) (h1 : valid3Second b0 b1 = true)
    (h2 : contB b2 = true) (ht : Utf8Valid t) : Utf8Valid (b0 :: b1 :: b2 :: t) := by
  obtain ⟨cs, hcs⟩ := ht
  have hb2 : 0x80 ≤ b2 ∧ b2 ≤ 0xBF := by simpa [contB] using h2
  have hb1 : (0x80 ≤ b1 ∧ b1 ≤ 0xBF) ∧ (b0 = 0xE0 → 0xA0 ≤ b1) ∧ (b0 = 0xED → b1 ≤ 0x9F) := by
    unfold valid3Second contB at h1
    split at h1
    · simp only [decide_eq_true_eq] at h1; omega
    · split at h1
      · simp only [decide_eq_true_eq] at h1; omega
      · simp only [decide_eq_true_eq] at h1; omega
  refine ⟨((b0 - 0xE0) * 4096 + (b1 - 0x80) * 64 + (b2 - 0x80)) :: cs, ?_⟩
  have he : utf8EncodeChar ((b0 - 0xE0) * 4096 + (b1 - 0x80) * 64 + (b2 - 0x80))
      = [b0, b1, b2] := by
    unfold utf8EncodeChar
    rw [if_neg (by omega), if_neg (by omega), if_pos (by omega)]
    simp only [List.cons.injEq, and_true]
    omega
  have h3 := Utf8Encodes.cons
    (c := (b0 - 0xE0) * 4096 + (b1 - 0x80) * 64 + (b2 - 0x80))
    (by unfold ScalarValue; omega) hcs
  rw [he] at h3
  simpa using h3

theorem utf8Valid_cons4 {b0 b1 b2 b3 : Nat} {t : List Nat}
    (h0 : 0xF0 ≤ b0) (h0' : b0 ≤ 0xF4) (h1 : valid4Second b0 b1 = true)
    (h2 : contB b2 = true) (h3 : contB b3 = true)
    (ht : Utf8Valid t) : Utf8Valid (b0 :: b1 :: b2 :: b3 :: t) := by
  obtain ⟨cs, hcs⟩ := ht
  have hb2 : 0x80 ≤ b2 ∧ b2 ≤ 0xBF := by simpa [contB] using h2
  have hb3 : 0x80 ≤ b3 ∧ b3 ≤ 0xBF := by simpa [contB] using h3
  have hb1 : (0x80 ≤ b1 ∧ b1 ≤ 0xBF) ∧ (b0 = 0xF0 → 0x90 ≤ b1) ∧ (b0 = 0xF4 → b1 ≤ 0x8F) := by
    unfold valid4Second contB at h1
    split at h1
    · simp only [decide_eq_true_eq] at h1; omega
    · split at h1
      · simp only [decide_eq_true_eq] at h1; omega
      · simp only [decide_eq_true_eq] at h1; omega
  refine ⟨((b0 - 0xF0) * 262144 + (b1 - 0x80) * 4096 + (b2 - 0x80) * 64 + (b3 - 0x80)) :: cs, ?_⟩
  have he : utf8EncodeChar ((b0 - 0xF0) * 262144 + (b1 - 0x80) * 4096 + (b2 - 0x80) * 64 + (b3 - 0x80))
      = [b0, b1, b2, b3] := by
    unfold utf8EncodeChar
    rw [if_neg (by omega), if_neg (by omega), if_neg (by omega)]
    simp only [List.cons.injEq, and_true]
    omega
  have h4 := Utf8Encodes.cons
    (c := (b0 - 0xF0) * 262144 + (b1 - 0x80) * 4096 + (b2 - 0x80) * 64 + (b3 - 0x80))
    (by unfold ScalarValue; omega) hcs
  rw [he] at h4
  simpa using h4


theorem valid_of_errAux_none :
    ∀ (i : Nat) (data : List Nat), utf8ErrAux i data = none → Utf8Valid data := by
  intro i data
  induction i, data using utf8ErrAux.induct with
  | case1 i => exact fun _ => utf8Valid_nil
  | case2 i b0 t hb ih =>
    intro h
    unfold utf8ErrAux at h
    rw [if_pos hb] at h
    exact utf8Valid_cons1 hb (ih h)
  | case3 i b0 t hb hb' =>
    intro h
    unfold utf8ErrAux at h
    rw [if_neg hb, if_pos hb'] at h
    exact Option.noConfusion h
  | case4 i b0 hb hb' hb'' =>
    intro h
    unfold utf8ErrAux at h
    rw [if_neg hb, if_neg hb', if_pos hb''] at h
    have h1 : (some (i, (none : Option Nat)) : Option (Nat × Option Nat)) = none := h
    exact Option.noConfusion h1
  | case5 i b0 hb hb' hb'' b1 t1 hc ih =>
    intro h
    unfold utf8ErrAux at h
    rw [if_neg hb, if_neg hb', if_pos hb''] at h
    have h1 : (if contB b1 = true then utf8ErrAux (i + 2) t1 else some (i, some 1)) = none := h
    rw [if_pos hc] at h1
    exact utf8Valid_cons2 (by omega) hb'' hc (ih h1)
  | case6 i b0 hb hb' hb'' b1 t1 hc =>
    intro h
    unfold utf8ErrAux at h
    rw [if_neg hb, if_neg hb', if_pos hb''] at h
    have h1 : (if contB b1 = true then utf8ErrAux (i + 2) t1 else some (i, some 1)) = none := h
    rw [if_neg hc] at h1
    exact Option.noConfusion h1
  | case7 i b0 hb hb' hb'' hb3 =>
    intro h
    unfold utf8ErrAux at h
    rw [if_neg hb, if_neg hb', if_neg hb'', if_pos hb3] at h
    have h1 : (some (i, (none : Option Nat)) : Option (Nat × Option Nat)) = none := h
    exact Option.noConfusion h1
  | case8 i b0 hb hb' hb'' hb3 b1 hv =>
    intro h
    unfold utf8ErrAux at h
    rw [if_neg hb, if_neg hb', if_neg hb'', if_pos hb3] at h
    have h1 : (if valid3Second b0 b1 = true then (some (i, (none : Option Nat)) : Option (Nat × Option Nat))
        else some (i, some 1)) = none := h
    rw [if_pos hv] at h1
    exact Option.noConfusion h1
  | case9 i b0 hb hb' hb'' hb3 b1 hv b2 t2 hc ih =>
    intro h
    unfold utf8ErrAux at h
    rw [if_neg hb, if_neg hb', if_neg hb'', if_pos hb3] at h
    have h1 : (if valid3Second b0 b1 = true then
        (if contB b2 = true then utf8ErrAux (i + 3) t2 else some (i, some 2))
        else some (i, some 1)) = none := h
    rw [if_pos hv, if_pos hc] at h1
    exact utf8Valid_cons3 (by omega) hb3 hv hc (ih h1)
  | case10 i b0 hb hb' hb'' hb3 b1 hv b2 t2 hc =>
    intro h
    unfold utf8ErrAux at h
    rw [if_neg hb, if_neg hb', if_neg hb'', if_pos hb3] at h
    have h1 : (if valid3Second b0 b1 = true then
        (if contB b2 = true then utf8ErrAux (i + 3) t2 else some (i, some 2))
        else some (i, some 1)) = none := h
    rw [if_pos hv, if_neg hc] at h1
    exact Option.noConfusion h1
  | case11 i b0 hb hb' hb'' hb3 b1 t1 hv =>
    intro h
    unfold utf8ErrAux at h
    rw [if_neg hb, if_neg hb', if_neg hb'', if_pos hb3] at h
    have h1 : (if valid3Second b0 b1 = true then
        (match t1 with
          | [] => some (i, none)
          | b2 :: t2 => if contB b2 = true then utf8ErrAux (i + 3) t2 else some (i, some 2))
        else some (i, some 1)) = none := h
    rw [if_neg hv] at h1
    exact Option.noConfusion h1
  | case12 i b0 hb hb' hb'' hb3 hb4 =>
    intro h
    unfold utf8ErrAux at h
    rw [if_neg hb, if_neg hb', if_neg hb'', if_neg hb3, if_pos hb4] at h
    have h1 : (some (i, (none : Option Nat)) : Option (Nat × Option Nat)) = none := h
    exact Option.noConfusion h1
  | case13 i b0 hb hb' hb'' hb3 hb4 b1 hv =>
    intro h
    unfold utf8ErrAux at h
    rw [if_neg hb, if_neg hb', if_neg hb'', if_neg hb3, if_pos hb4] at h
    have h1 : (if valid4Second b0 b1 = true then (some (i, (none : Option Nat)) : Option (Nat × Option Nat))
        else some (i, some 1)) = none := h
    rw [if_pos hv] at h1
    exact Option.noConfusion h1
  | case14 i b0 hb hb' hb'' hb3 hb4 b1 hv b2 hc =>
    intro h
    unfold utf8ErrAux at h
    rw [if_neg hb, if_neg hb', if_neg hb'', if_neg hb3, if_pos hb4] at h
    have h1 : (if valid4Second b0 b1 = true then
        (if contB b2 = true then (some (i, (none : Option Nat)) : Option (Nat × Option Nat))
          else some (i, some 2))
        else some (i, some 1)) = none := h
    rw [if_pos hv, if_pos hc] at h1
    exact Option.noConfusion h1
  | case15 i b0 hb hb' hb'' hb3 hb4 b1 hv b2 hc b3 t3 hc3 ih =>
    intro h
    unfold utf8ErrAux at h
    rw [if_neg hb, if_neg hb', if_neg hb'', if_neg hb3, if_pos hb4] at h
    have h1 : (if valid4Second b0 b1 = true then
        (if contB b2 = true then
          (if contB b3 = true then utf8ErrAux (i + 4) t3 else some (i, some 3))
          else some (i, some 2))
        else some (i, some 1)) = none := h
    rw [if_pos hv, if_pos hc, if_pos hc3] at h1
    exact utf8Valid_cons4 (by omega) hb4 hv hc hc3 (ih h1)
  | case16 i b0 hb hb' hb'' hb3 hb4 b1 hv b2 hc b3 t3 hc3 =>
    intro h
    unfold utf8ErrAux at h
    rw [if_neg hb, if_neg hb', if_neg hb'', if_neg hb3, if_pos hb4] at h
    have h1 : (if valid4Second b0 b1 = true then
        (if contB b2 = true then
          (if contB b3 = true then utf8ErrAux (i + 4) t3 else some (i, some 3))
          else some (i, some 2))
        else some (i, some 1)) = none := h
    rw [if_pos hv, if_pos hc, if_neg hc3] at h1
    exact Option.noConfusion h1
  | case17 i b0 hb hb' hb'' hb3 hb4 b1 hv b2 t2 hc =>
    intro h
    unfold utf8ErrAux at h
    rw [if_neg hb, if_neg hb', if_neg hb'', if_neg hb3, if_pos hb4] at h
    have h1 : (if valid4Second b0 b1 = true then
        (if contB b2 = true then
          (match t2 with
            | [] => some (i, none)
            | b3 :: t3 => if contB b3 = true then utf8ErrAux (i + 4) t3 else some (i, some 3))
          else some (i, some 2))
        else some (i, some 1)) = none := h
    rw [if_pos hv, if_neg hc] at h1
    exact Option.noConfusion h1
  | case18 i b0 hb hb' hb'' hb3 hb4 b1 t1 hv =>
    intro h
    unfold utf8ErrAux at h
    rw [if_neg hb, if_neg hb', if_neg hb'', if_neg hb3, if_pos hb4] at h
    have h1 : (if valid4Second b0 b1 = true then
        (match t1 with
          | [] => some (i, none)
          | b2 :: t2 =>
            if contB b2 = true then
              (match t2 with
                | [] => some (i, none)
                | b3 :: t3 => if contB b3 = true then utf8ErrAux (i + 4) t3 else some (i, some 3))
            else some (i, some 2))
        else some (i, some 1)) = none := h
    rw [if_neg hv] at h1
    exact Option.noConfusion h1
  | case19 i b0 t hb hb' hb'' hb3 hb4 =>
    intro h
    unfold utf8ErrAux at h
    rw [if_neg hb, if_neg hb', if_neg hb'', if_neg hb3, if_neg hb4] at h
    exact Option.noConfusion h

theorem errAux_of_encodes : ∀ {cs bs : List Nat}, Utf8Encodes cs bs →
    ∀ i, utf8ErrAux i bs = none := by
  intro cs bs h
  induction h with
  | nil => intro i; rfl
  | @cons c cs' bs' hsc henc ih =>
    intro i
    unfold ScalarValue at hsc
    by_cases h1 : c < 0x80
    · have he : utf8EncodeChar c = [c] := by unfold utf8EncodeChar; rw [if_pos h1]
      rw [he]
      show utf8ErrAux i (c :: bs') = none
      unfold utf8ErrAux
      rw [if_pos (by omega)]
      exact ih (i + 1)
    · by_cases h2 : c < 0x800
      · have he : utf8EncodeChar c = [0xC0 + c / 64, 0x80 + c % 64] := by
          unfold utf8EncodeChar; rw [if_neg h1, if_pos h2]
        rw [he]
        show utf8ErrAux i ((0xC0 + c / 64) :: (0x80 + c % 64) :: bs') = none
        unfold utf8ErrAux
        rw [if_neg (by omega), if_neg (by omega), if_pos (by omega)]
        show (if contB (0x80 + c % 64) = true then utf8ErrAux (i + 2) bs'
            else some (i, some 1)) = none
        rw [if_pos (by simp only [contB, decide_eq_true_eq]; omega)]
        exact ih (i + 2)
      · by_cases h3 : c < 0x10000
        · have he : utf8EncodeChar c = [0xE0 + c / 4096, 0x80 + c / 64 % 64, 0x80 + c % 64] := by
            unfold utf8EncodeChar; rw [if_neg h1, if_neg h2, if_pos h3]
          rw [he]
          show utf8ErrAux i
            ((0xE0 + c / 4096) :: (0x80 + c / 64 % 64) :: (0x80 + c % 64) :: bs') = none
          unfold utf8ErrAux
          rw [if_neg (by omega), if_neg (by omega), if_neg (by omega), if_pos (by omega)]
          show (if valid3Second (0xE0 + c / 4096) (0x80 + c / 64 % 64) = true then
              (if contB (0x80 + c % 64) = true then utf8ErrAux (i + 3) bs' else some (i, some 2))
              else some (i, some 1)) = none
          have hv : valid3Second (0xE0 + c / 4096) (0x80 + c / 64 % 64) = true := by
            unfold valid3Second contB
            split
            · simp only [decide_eq_true_eq]; omega
            · split
              · simp only [decide_eq_true_eq]; omega
              · simp only [decide_eq_true_eq]; omega
          rw [if_pos hv, if_pos (by simp only [contB, decide_eq_true_eq]; omega)]
          exact ih (i + 3)
        · have he : utf8EncodeChar c =
              [0xF0 + c / 262144, 0x80 + c / 4096 % 64, 0x80 + c / 64 % 64, 0x80 + c % 64] := by
            unfold utf8EncodeChar; rw [if_neg h1, if_neg h2, if_neg h3]
          rw [he]
          show utf8ErrAux i
            ((0xF0 + c / 262144) :: (0x80 + c / 4096 % 64) :: (0x80 + c / 64 % 64) ::
              (0x80 + c % 64) :: bs') = none
          unfold utf8ErrAux
          rw [if_neg (by omega), if_neg (by omega), if_neg (by omega), if_neg (by omega),
            if_pos (by omega)]
          show (if valid4Second (0xF0 + c / 262144) (0x80 + c / 4096 % 64) = true then
              (if contB (0x80 + c / 64 % 64) = true then
                (if contB (0x80 + c % 64) = true then utf8ErrAux (i + 4) bs' else some (i, some 3))
                else some (i, some 2))
              else some (i, some 1)) = none
          have hv : valid4Second (0xF0 + c / 262144) (0x80 + c / 4096 % 64) = true := by
            unfold valid4Second contB
            split
            · simp only [decide_eq_true_eq]; omega
            · split
              · simp only [decide_eq_true_eq]; omega
              · simp only [decide_eq_true_eq]; omega
          rw [if_pos hv, if_pos (by simp only [contB, decide_eq_true_eq]; omega),
            if_pos (by simp only [contB, decide_eq_true_eq]; omega)]
          exact ih (i + 4)

theorem validUtf8_iff_Utf8Valid (data : List Nat) :
    validUtf8 data = true ↔ Utf8Valid data := by
  constructor
  · intro h
    exact valid_of_errAux_none 0 data (Option.isNone_iff_eq_none.mp h)
  · intro h
    obtain ⟨cs, hcs⟩ := h
    unfold validUtf8 utf8Error
    rw [errAux_of_encodes hcs 0]
    rfl

theorem decode_raw {F : Flate2} {m : List Nat} (hm : validUtf8 m = true) :
    maybe_decompress F m false = Except.ok m := by
  unfold maybe_decompress
  have hnone : utf8Error m = none := Option.isNone_iff_eq_none.mp hm
  simp only [Bool.not_false, if_true, hnone]

theorem decode_gz_ok {F : Flate2} {d b : List Nat} (hd : F.decompress d = Except.ok b)
    (hb : validUtf8 b = true) : maybe_decompress F d true = Except.ok b := by
  unfold maybe_decompress
  rw [show (!true) = false from rfl, if_neg (by simp)]
  rw [hd]
  show (if validUtf8 b then Except.ok b
      else Except.error ("Decompression error: " ++ "stream did not contain valid UTF-8"))
      = Except.ok b
  rw [if_pos hb]

theorem compress_small {F : Flate2} {msg : List Nat}
    (h : msg.length < COMPRESSION_THRESHOLD) : maybe_compress F msg = (msg, false) := by
  unfold maybe_compress
  rw [if_pos h]

theorem compress_won {F : Flate2} {msg c : List Nat}
    (hlen : ¬ msg.length < COMPRESSION_THRESHOLD)
    (hc : F.compress msg = some c) (hsz : c.length < msg.length) :
    maybe_compress F msg = (c, true) := by
  unfold maybe_compress
  rw [if_neg hlen, hc]
  show (if c.length < msg.length then (c, true) else (msg, false)) = (c, true)
  rw [if_pos hsz]

theorem compress_not_smaller {F : Flate2} {msg c : List Nat}
    (hlen : ¬ msg.length < COMPRESSION_THRESHOLD)
    (hc : F.compress msg = some c) (hsz : ¬ c.length < msg.length) :
    maybe_compress F msg = (msg, false) := by
  unfold maybe_compress
  rw [if_neg hlen, hc]
  show (if c.length < msg.length then (c, true) else (msg, false)) = (msg, false)
  rw [if_neg hsz]

theorem compress_errored {F : Flate2} {msg : List Nat}
    (hlen : ¬ msg.length < COMPRESSION_THRESHOLD)
    (hc : F.compress msg = none) : maybe_compress F msg = (msg, false) := by
  unfold maybe_compress
  rw [if_neg hlen, hc]

theorem decode_raw_err {F : Flate2} {m : List Nat} {e : Nat × Option Nat}
    (he : utf8Error m = some e) :
    maybe_decompress F m false = Except.error ("UTF-8 decode error: " ++ utf8ErrDisplay e) := by
  unfold maybe_decompress
  simp only [Bool.not_false, if_true, he]

theorem decode_gz_streamErr {F : Flate2} {d : List Nat} {m : String}
    (hd : F.decompress d = Except.error m) :
    maybe_decompress F d true = Except.error ("Decompression error: " ++ m) := by
  unfold maybe_decompress
  rw [show (!true) = false from rfl, if_neg (by simp), hd]

theorem decode_gz_invalid {F : Flate2} {d b : List Nat}
    (hd : F.decompress d = Except.ok b) (hb : validUtf8 b = false) :
    maybe_decompress F d true
      = Except.error ("Decompression error: " ++ "stream did not contain valid UTF-8") := by
  unfold maybe_decompress
  rw [show (!true) = false from rfl, if_neg (by simp), hd]
  show (if validUtf8 b then Except.ok b
      else Except.error ("Decompression error: " ++ "stream did not contain valid UTF-8"))
      = Except.error ("Decompression error: " ++ "stream did not contain valid UTF-8")
  rw [hb]
  simp

theorem from_message_eq_first_match (msg : List Nat) :
    MessagePriority.from_message msg = classifyFirstMatch msg := by
  simp only [MessagePriority.from_message, classifyFirstMatch, hasCriticalMarker, hasHighMarker,
    hasLowMarker, criticalMarkers, highMarkers, lowMarkers, List.any_cons, List.any_nil,
    Bool.or_false, Bool.or_assoc]


/-! Claim-level theorems. -/

/-- C1.  Round-trip: for every message `m` (a valid-UTF-8 byte string, the
`str` invariant) and any gzip implementation whose decompression inverts
its compression (the `flate2` contract), decoding the pair produced by
`maybe_compress` with `maybe_decompress` returns `Ok m` exactly. -/
theorem claim_roundtrip (F : Flate2) (m : List Nat) (hm : validUtf8 m = true)
    (hrt : ∀ b c, F.compress b = some c → F.decompress c = Except.ok b) :
    maybe_decompress F (maybe_compress F m).1 (maybe_compress F m).2 = Except.ok m := by
  by_cases hlen : m.length < COMPRESSION_THRESHOLD
  · rw [compress_small hlen]
    exact decode_raw hm
  · cases hc : F.compress m with
    | none =>
      rw [compress_errored hlen hc]
      exact decode_raw hm
    | some c =>
      by_cases hsz : c.length < m.length
      · rw [compress_won hlen hc hsz]
        exact decode_gz_ok (hrt m c hc) hm
      · rw [compress_not_smaller hlen hc hsz]
        exact decode_raw hm

/-- Witness for C1 at a concrete multi-byte message and a concrete codec
satisfying the inversion contract. -/
theorem claim_roundtrip_witness :
    maybe_decompress gzipId (maybe_compress gzipId (utf8Bytes "héllo ∀")).1
      (maybe_compress gzipId (utf8Bytes "héllo ∀")).2 = Except.ok (utf8Bytes "héllo ∀") :=
  claim_roundtrip gzipId (utf8Bytes "héllo ∀") (by decide)
    (fun b c hc => by
      have hbc : b = c := by simpa [gzipId] using hc
      subst hbc
      rfl)

/-- C2.  Sub-threshold identity: a message whose UTF-8 byte length is
strictly below 1024 is returned as its raw bytes with flag `false`,
whatever the compressor would do. -/
theorem claim_sub_threshold_identity (F : Flate2) (msg : List Nat)
    (h : msg.length < 1024) : maybe_compress F msg = (msg, false) :=
  compress_small h

/-- Witness for C2 at the boundary: a message of exactly 1023 bytes never
sets the transformed flag. -/
theorem claim_sub_threshold_identity_witness :
    maybe_compress gzipShrink (List.replicate 1023 97) = (List.replicate 1023 97, false) :=
  claim_sub_threshold_identity gzipShrink (List.replicate 1023 97)
    (by rw [List.length_replicate]; omega)

/-- C3.  Flag accuracy at or above the threshold: the flag is `true`
exactly when the transform succeeded with strictly smaller output, in
which case the transformed bytes are returned; otherwise the raw bytes
are returned with `false`. -/
theorem claim_flag_accuracy (F : Flate2) (msg : List Nat) (h : 1024 ≤ msg.length) :
    (∀ c, F.compress msg = some c → c.length < msg.length →
      maybe_compress F msg = (c, true))
    ∧ (∀ c, F.compress msg = some c → ¬ c.length < msg.length →
      maybe_compress F msg = (msg, false))
    ∧ (F.compress msg = none → maybe_compress F msg = (msg, false))
    ∧ ((maybe_compress F msg).2 = true ↔
      ∃ c, F.compress msg = some c ∧ c.length < msg.length)
    ∧ ((maybe_compress F msg).2 = true →
      (maybe_compress F msg).1.length < msg.length) := by
  have hlen : ¬ msg.length < COMPRESSION_THRESHOLD := by
    unfold COMPRESSION_THRESHOLD; omega
  refine ⟨fun c hc hsz => compress_won hlen hc hsz,
    fun c hc hsz => compress_not_smaller hlen hc hsz,
    fun hc => compress_errored hlen hc, ⟨?_, ?_⟩, ?_⟩
  · intro hflag
    cases hc : F.compress msg with
    | none =>
      rw [compress_errored hlen hc] at hflag
      simp at hflag
    | some c =>
      by_cases hsz : c.length < msg.length
      · exact ⟨c, rfl, hsz⟩
      · rw [compress_not_smaller hlen hc hsz] at hflag
        simp at hflag
  · rintro ⟨c, hc, hsz⟩
    rw [compress_won hlen hc hsz]
  · intro hflag
    cases hc : F.compress msg with
    | none =>
      rw [compress_errored hlen hc] at hflag
      simp at hflag
    | some c =>
      by_cases hsz : c.length < msg.length
      · rw [compress_won hlen hc hsz]
        exact hsz
      · rw [compress_not_smaller hlen hc hsz] at hflag
        simp at hflag

/-- Witness for C3: a concrete 1024-byte message whose transform shrinks
it to two bytes comes back transformed with the flag set. -/
theorem claim_flag_accuracy_witness :
    maybe_compress gzipShrink (List.replicate 1024 120) = ([65, 65], true) :=
  (claim_flag_accuracy gzipShrink (List.replicate 1024 120)
      (by rw [List.length_replicate])).1
    [65, 65] rfl (by rw [List.length_replicate]; decide)

/-- C4.  Encode totality: `maybe_compress` is a total function (it is a
Lean function into a plain pair type), and when the compression transform
cannot be completed it falls back to the raw bytes with flag `false`. -/
theorem claim_encode_totality (F : Flate2) (msg : List Nat)
    (h : F.compress msg = none) : maybe_compress F msg = (msg, false) := by
  by_cases hlen : msg.length < COMPRESSION_THRESHOLD
  · exact compress_small hlen
  · exact compress_errored hlen h

/-- Witness for C4: a failing compressor on a large message degrades to
the raw bytes with flag `false`. -/
theorem claim_encode_totality_witness :
    maybe_compress gzipFailing (List.replicate 1024 120)
      = (List.replicate 1024 120, false) :=
  claim_encode_totality gzipFailing (List.replicate 1024 120) rfl

end ZksRelay
namespace ZksRelay

/-- C5.  Untransformed decode: `maybe_decompress d false` returns `Ok`
with exactly the input bytes (the decoded string, under the bytes-as-string
model) when `d` is valid UTF-8 in the declarative sense, and returns a
decode error exactly when `d` is not valid UTF-8. -/
theorem claim_decode_untransformed (F : Flate2) (d : List Nat) :
    (Utf8Valid d → maybe_decompress F d false = Except.ok d)
    ∧ (¬ Utf8Valid d → ∃ e, maybe_decompress F d false = Except.error e)
    ∧ (∀ s, maybe_decompress F d false = Except.ok s → s = d ∧ Utf8Valid d) := by
  cases he : utf8Error d with
  | none =>
    have hv : validUtf8 d = true := by unfold validUtf8; rw [he]; rfl
    have hu : Utf8Valid d := (validUtf8_iff_Utf8Valid d).mp hv
    refine ⟨fun _ => decode_raw hv, fun hn => absurd hu hn, fun s hs => ?_⟩
    rw [decode_raw hv] at hs
    injection hs with h
    exact ⟨h.symm, hu⟩
  | some e =>
    have hnu : ¬ Utf8Valid d := by
      intro hu
      have hv := (validUtf8_iff_Utf8Valid d).mpr hu
      unfold validUtf8 at hv
      rw [he] at hv
      exact Bool.noConfusion hv
    refine ⟨fun hu => absurd hu hnu, fun _ => ⟨_, decode_raw_err he⟩, fun s hs => ?_⟩
    rw [decode_raw_err he] at hs
    exact Except.noConfusion hs

/-- Witness for C5: a valid multi-byte input decodes to itself, and an
invalid byte yields an error. -/
theorem claim_decode_untransformed_witness :
    maybe_decompress gzipId (utf8Bytes "héllo") false = Except.ok (utf8Bytes "héllo")
    ∧ (∃ e, maybe_decompress gzipId [0xC0] false = Except.error e) :=
  ⟨(claim_decode_untransformed gzipId (utf8Bytes "héllo")).1
      ((validUtf8_iff_Utf8Valid (utf8Bytes "héllo")).mp (by decide)),
    (claim_decode_untransformed gzipId [0xC0]).2.1
      (fun hu => absurd ((validUtf8_iff_Utf8Valid [0xC0]).mpr hu) (by decide))⟩

/-- C6.  Transformed decode error path: when the decompressor rejects the
stream, or accepts it but yields bytes that are not valid UTF-8,
`maybe_decompress d true` returns an error (totality of the Lean function
is the no-panic property); and an `Ok s` result is never silently wrong —
it is exactly the decompressed bytes, which are valid UTF-8. -/
theorem claim_decode_transformed_errors (F : Flate2) (d : List Nat) :
    ((∃ m, F.decompress d = Except.error m) →
      ∃ e, maybe_decompress F d true = Except.error e)
    ∧ (∀ b, F.decompress d = Except.ok b → validUtf8 b = false →
      ∃ e, maybe_decompress F d true = Except.error e)
    ∧ (∀ s, maybe_decompress F d true = Except.ok s →
      F.decompress d = Except.ok s ∧ validUtf8 s = true) := by
  refine ⟨fun hm => ?_, fun b hb hv => ⟨_, decode_gz_invalid hb hv⟩, fun s hs => ?_⟩
  · obtain ⟨m, hm⟩ := hm
    exact ⟨_, decode_gz_streamErr hm⟩
  · cases hd : F.decompress d with
    | error m =>
      rw [decode_gz_streamErr hd] at hs
      exact Except.noConfusion hs
    | ok b =>
      cases hv : validUtf8 b with
      | false =>
        rw [decode_gz_invalid hd hv] at hs
        exact Except.noConfusion hs
      | true =>
        rw [decode_gz_ok hd hv] at hs
        injection hs with h
        subst h
        exact ⟨rfl, hv⟩

/-- Witness for C6: a malformed stream and an
invalid-UTF-8-after-decompression stream both yield errors. -/
theorem claim_decode_transformed_errors_witness :
    (∃ e, maybe_decompress gzipFailing [1, 2, 3] true = Except.error e)
    ∧ (∃ e, maybe_decompress gzipToInvalid [0] true = Except.error e) :=
  ⟨(claim_decode_transformed_errors gzipFailing [1, 2, 3]).1 ⟨_, rfl⟩,
    (claim_decode_transformed_errors gzipToInvalid [0]).2.1 [0xFF] rfl rfl⟩

/-- C7, counterexample.  The claim groups the invalid-UTF-8-after-
decompression error with the direct invalid-UTF-8 error as one kind. In
the code the transformed path reports it under the `"Decompression
error: "` prefix — the same kind label as a malformed stream — while only
the untransformed path uses the `"UTF-8 decode error: "` prefix, and the
two prefixes differ. -/
theorem claim_decode_error_taxonomy_counterexample :
    maybe_decompress gzipToInvalid [0] true
      = Except.error ("Decompression error: " ++ "stream did not contain valid UTF-8")
    ∧ maybe_decompress gzipFailing [0] true
      = Except.error ("Decompression error: " ++ "corrupt deflate stream")
    ∧ maybe_decompress gzipId [0xFF] false
      = Except.error ("UTF-8 decode error: " ++ "invalid utf-8 sequence of 1 bytes from index 0")
    ∧ ("Decompression error: " : String) ≠ "UTF-8 decode error: " :=
  ⟨rfl, rfl, rfl, by decide⟩

/-- C7, amended.  `maybe_decompress` reports two distinct error kinds
distinguished by code path: `"UTF-8 decode error: "` with the underlying
`FromUtf8Error` display on the untransformed path, and `"Decompression
error: "` with the underlying io cause on the transformed path — the
latter covering both a malformed stream and an invalid-UTF-8
decompression result.  Every error carries its underlying cause. -/
theorem claim_decode_error_taxonomy (F : Flate2) (d : List Nat) :
    (∀ e, maybe_decompress F d false = Except.error e →
      ∃ c, utf8Error d = some c ∧ e = "UTF-8 decode error: " ++ utf8ErrDisplay c)
    ∧ (∀ e, maybe_decompress F d true = Except.error e →
      (∃ m, F.decompress d = Except.error m ∧ e = "Decompression error: " ++ m)
      ∨ (∃ b, F.decompress d = Except.ok b ∧ validUtf8 b = false
        ∧ e = "Decompression error: " ++ "stream did not contain valid UTF-8")) := by
  constructor
  · intro e he
    cases hu : utf8Error d with
    | none =>
      have hv : validUtf8 d = true := by unfold validUtf8; rw [hu]; rfl
      rw [decode_raw hv] at he
      exact Except.noConfusion he
    | some c =>
      rw [decode_raw_err hu] at he
      injection he with h
      exact ⟨c, rfl, h.symm⟩
  · intro e he
    cases hd : F.decompress d with
    | error m =>
      left
      rw [decode_gz_streamErr hd] at he
      injection he with h
      exact ⟨m, rfl, h.symm⟩
    | ok b =>
      cases hv : validUtf8 b with
      | true =>
        rw [decode_gz_ok hd hv] at he
        exact Except.noConfusion he
      | false =>
        right
        rw [decode_gz_invalid hd hv] at he
        injection he with h
        exact ⟨b, rfl, hv, h.symm⟩

/-- Witness for the amended C7 at concrete errors of both kinds. -/
theorem claim_decode_error_taxonomy_witness :
    (∃ c, utf8Error [0xFF] = some c
      ∧ ("UTF-8 decode error: " ++ "invalid utf-8 sequence of 1 bytes from index 0" : String)
        = "UTF-8 decode error: " ++ utf8ErrDisplay c)
    ∧ ((∃ m, gzipFailing.decompress [0] = Except.error m
        ∧ ("Decompression error: " ++ "corrupt deflate stream" : String)
          = "Decompression error: " ++ m)
      ∨ (∃ b, gzipFailing.decompress [0] = Except.ok b ∧ validUtf8 b = false
        ∧ ("Decompression error: " ++ "corrupt deflate stream" : String)
          = "Decompression error: " ++ "stream did not contain valid UTF-8")) :=
  ⟨(claim_decode_error_taxonomy gzipId [0xFF]).1
      ("UTF-8 decode error: " ++ "invalid utf-8 sequence of 1 bytes from index 0") rfl,
    (claim_decode_error_taxonomy gzipFailing [0]).2
      ("Decompression error: " ++ "corrupt deflate stream") rfl⟩

/-- C8.  Classifier contract: `from_message` is total and pure by
construction, and equals the first-match evaluation of the ordered marker
groups (Critical, then High, then Low, else Normal) with exactly the
markers listed in the claim. -/
theorem claim_classifier_contract (msg : List Nat) :
    MessagePriority.from_message msg = classifyFirstMatch msg :=
  from_message_eq_first_match msg

/-- C9, counterexample.  Evaluation order is not irrelevant: a message
containing markers of two tiers (here `Pong` and `KeyExchange`)
classifies differently when the Low group is tested before the Critical
group, so the reordered variant is not extensionally equal. -/
theorem claim_classify_order_counterexample :
    from_message_low_first (utf8Bytes "Pong KeyExchange")
      ≠ MessagePriority.from_message (utf8Bytes "Pong KeyExchange") := by
  decide

/-- C9, amended.  Order independence holds exactly on messages that do
not contain markers from two distinct tiers: for such messages the
Low-first variant agrees with `from_message`. -/
theorem claim_classify_order_amended (msg : List Nat)
    (hcl : ¬(hasCriticalMarker msg = true ∧ hasLowMarker msg = true))
    (hch : ¬(hasCriticalMarker msg = true ∧ hasHighMarker msg = true))
    (hhl : ¬(hasHighMarker msg = true ∧ hasLowMarker msg = true)) :
    from_message_low_first msg = MessagePriority.from_message msg := by
  rw [from_message_eq_first_match]
  unfold from_message_low_first classifyFirstMatch
  cases hC : hasCriticalMarker msg <;> cases hH : hasHighMarker msg <;>
    cases hL : hasLowMarker msg <;> simp_all

/-- Witness for the amended C9 at a single-tier message. -/
theorem claim_classify_order_amended_witness :
    from_message_low_first (utf8Bytes "\x7b\"type\":\"ping\"\x7d")
      = MessagePriority.from_message (utf8Bytes "\x7b\"type\":\"ping\"\x7d") :=
  claim_classify_order_amended (utf8Bytes "\x7b\"type\":\"ping\"\x7d")
    (by decide) (by decide) (by decide)

/-- C10.  Case-sensitive exact matching: case variants of markers (and
the bare token `Ping`, unlike `Pong`) match nothing and classify as
`Normal`, while the exact markers still classify to their tiers. -/
theorem claim_case_sensitive_matching :
    MessagePriority.from_message (utf8Bytes "\x7b\"type\":\"Ping\"\x7d") = MessagePriority.Normal
    ∧ MessagePriority.from_message (utf8Bytes "\x7b\"TYPE\":\"AUTH\"\x7d") = MessagePriority.Normal
    ∧ MessagePriority.from_message (utf8Bytes "keyexchange") = MessagePriority.Normal
    ∧ MessagePriority.from_message (utf8Bytes "Ping") = MessagePriority.Normal
    ∧ MessagePriority.from_message (utf8Bytes "Pong") = MessagePriority.Low
    ∧ MessagePriority.from_message (utf8Bytes "\x7b\"type\":\"ping\"\x7d") = MessagePriority.Low
    ∧ MessagePriority.from_message (utf8Bytes "\x7b\"type\":\"auth\"\x7d") = MessagePriority.Critical := by
  refine ⟨by decide, by decide, by decide, by decide, by decide, by decide, by decide⟩

end ZksRelay
